import Mathlib

/-
Verification of the `srml/timestamp` module (src/srml/timestamp/src/lib.rs).

The module keeps three storage slots (`Now`, `BlockPeriod`, `DidUpdate`),
exposes the dispatchable `set` and the `on_finalise` hook, and implements
`ProvideInherent` with `create_inherent` and `check_inherent`.  The generic
`Moment` type (a `SimpleArithmetic` scalar, `u64` in the tests) is embedded
as `Nat`.
-/

namespace Timestamp

/-- Storage of the module as declared in `decl_storage`: `Now` (current time,
genesis value 0), `BlockPeriod` (minimum period, genesis-configured), and the
per-block `DidUpdate` flag.  `DidUpdate` is stored as a plain `Bool`:
`didUpdate = true` models the key existing with value `true` (the only value
ever written), `false` models the key being absent. -/
structure State where
  now : Nat
  blockPeriod : Nat
  didUpdate : Bool
deriving Repr, DecidableEq

/-- The dispatchable calls generated by `decl_module`: only `set` carries an
origin and an argument (`on_finalise` is a hook, not a call). -/
inductive Call where
  | set (t : Nat)
deriving Repr, DecidableEq

/-- The timestamp slot of an `InherentData` bag as seen through
`get_data::<InherentType>`: the key can be absent, present but failing to
decode, or hold a decoded `u64` value. -/
inductive InherentDataSlot where
  | missing
  | invalid
  | value (v : Nat)
deriving Repr, DecidableEq

/-- The `InherentError` enum: a non-fatal deferral carrying the earliest
valid time, or a fatal error carrying a message. -/
inductive InherentError where
  | ValidAtTimestamp (t : Nat)
  | Other (msg : String)
deriving Repr, DecidableEq

/-- The `IsFatalError` implementation for `InherentError`. -/
def is_fatal_error : InherentError → Bool
  | .ValidAtTimestamp _ => false
  | .Other _ => true

/-- The free function `extract_inherent_data`: a decode failure maps to the
encoding message, an absent key to the not-provided message. -/
def extract_inherent_data : InherentDataSlot → Except String Nat
  | .invalid => .error "Invalid timestamp inherent data encoding."
  | .missing => .error "Timestamp inherent data is not provided."
  | .value v => .ok v

/-- Modelled from the spec: `ensure_inherent` lives in the external
`srml_system` crate; the spec reduces origin classification to the single
predicate "is this an inherent call", failing with a dispatch error
otherwise. -/
def ensure_inherent (originIsInherent : Bool) : Except String Unit :=
  if originIsInherent then .ok () else .error "bad origin: expected to be an inherent origin"

/-- The macro-generated `OnTimestampSet` implementation for a tuple of `n`
listeners: each listener, in tuple (registration) order, is called with the
moment.  The result is the call trace, one `(listener index, moment)` event
per listener in the order the calls happen. -/
def on_timestamp_set_all (n : Nat) (moment : Nat) : List (Nat × Nat) :=
  (List.range n).map (fun i => (i, moment))

/-- The dispatchable `set`: checks the inherent origin, panics if `DidUpdate`
already exists, panics unless `Now` is zero or the submitted value is at
least `Now + BlockPeriod`, then writes `Now`, sets `DidUpdate`, and notifies
the `n` registered listeners with the new value.  Errors model panics /
dispatch errors (the surrounding engine discards the block, so no state is
returned on failure). -/
def set (n : Nat) (originIsInherent : Bool) (t : Nat) (s : State) :
    Except String (State × List (Nat × Nat)) :=
  match ensure_inherent originIsInherent with
  | .error e => .error e
  | .ok _ =>
    if s.didUpdate then
      .error "Timestamp must be updated only once in the block"
    else if s.now = 0 ∨ s.now + s.blockPeriod ≤ t then
      .ok ({ s with now := t, didUpdate := true }, on_timestamp_set_all n t)
    else
      .error "Timestamp must increment by at least <BlockPeriod> between sequential blocks"

/-- The `on_finalise` hook: `DidUpdate::take()` removes the flag (leaving it
absent, i.e. `false`) and returns its old value, which is then asserted.
The first component is the assertion outcome (`false` means the panic fires
and the block is rejected); the second is the storage after the `take`. -/
def on_finalise (s : State) : Bool × State :=
  (s.didUpdate, { s with didUpdate := false })

/-- The public getter `get` (and the storage getter `now`). -/
def get (s : State) : Nat :=
  s.now

/-- The fixed drift constant of `check_inherent`. -/
def MAX_TIMESTAMP_DRIFT : Nat := 60

/-- The `create_inherent` implementation: extracts the inherent data
(`expect` panics on failure, modelled as the error branch) and proposes
`set (max data (now + blockPeriod))`. -/
def create_inherent (d : InherentDataSlot) (s : State) : Except String Call :=
  match extract_inherent_data d with
  | .error e => .error e
  | .ok data => .ok (Call.set (max data (s.now + s.blockPeriod)))

/-- The `check_inherent` implementation: for a `set t` call, extract the
local reading (mapping failures to the fatal `Other` variant), then reject
fatally when `t` exceeds `reading + MAX_TIMESTAMP_DRIFT`, defer non-fatally
to `minimum = now + blockPeriod` when `t` is below it, and accept
otherwise. -/
def check_inherent (c : Call) (d : InherentDataSlot) (s : State) :
    Except InherentError Unit :=
  match c with
  | .set t =>
    match extract_inherent_data d with
    | .error e => .error (.Other e)
    | .ok data =>
      let minimum := s.now + s.blockPeriod
      if t > data + MAX_TIMESTAMP_DRIFT then
        .error (.Other "Timestamp too far in future to accept")
      else if t < minimum then
        .error (.ValidAtTimestamp minimum)
      else
        .ok ()

/-- The operations of the module, for reasoning about sequences. -/
inductive Op where
  | setOp (originIsInherent : Bool) (t : Nat)
  | finaliseOp
  | getOp
  | checkOp (c : Call) (d : InherentDataSlot)
  | createOp (d : InherentDataSlot)
deriving Repr

/-- One step of the module: a failed `set` leaves storage unchanged (the
block is discarded), `on_finalise` always leaves the flag consumed, and the
read-only operations (`get`, `check_inherent`, `create_inherent`) never
touch storage. -/
def apply_op (n : Nat) (op : Op) (s : State) : State :=
  match op with
  | .setOp o t =>
    match set n o t s with
    | .ok r => r.1
    | .error _ => s
  | .finaliseOp => (on_finalise s).2
  | .getOp => s
  | .checkOp _ _ => s
  | .createOp _ => s

/-- Run of a sequence of operations. -/
def run (n : Nat) (ops : List Op) (s : State) : State :=
  ops.foldl (fun s op => apply_op n op s) s

/-- Success of `set` is equivalent to the three preconditions holding, and
then the result is exactly the updated storage plus the listener trace. -/
theorem set_ok_iff (n : Nat) (o : Bool) (t : Nat) (s : State)
    (r : State × List (Nat × Nat)) :
    set n o t s = .ok r ↔
      (o = true ∧ s.didUpdate = false ∧ (s.now = 0 ∨ s.now + s.blockPeriod ≤ t) ∧
        r = ({ s with now := t, didUpdate := true }, on_timestamp_set_all n t)) := by
  unfold set ensure_inherent
  cases o with
  | false => simp
  | true =>
    cases hd : s.didUpdate with
    | true => simp [hd]
    | false =>
      by_cases hg : s.now = 0 ∨ s.now + s.blockPeriod ≤ t
      · simp [hd, hg, eq_comm]
      · simp [hd, hg]

/-- One step never decreases `now`. -/
theorem apply_op_now_le (n : Nat) (op : Op) (s : State) :
    s.now ≤ (apply_op n op s).now := by
  cases op with
  | setOp o t =>
    simp only [apply_op]
    split
    · rename_i r h
      rcases (set_ok_iff n o t s r).1 h with ⟨-, -, hg, hr⟩
      subst hr
      rcases hg with h0 | hle
      · simp [h0]
      · exact le_trans (Nat.le_add_right _ _) hle
    · exact le_refl _
  | finaliseOp => exact le_refl _
  | getOp => exact le_refl _
  | checkOp c d => exact le_refl _
  | createOp d => exact le_refl _

/-- A run never decreases `now`. -/
theorem run_now_le (n : Nat) (ops : List Op) (s : State) :
    s.now ≤ (run n ops s).now := by
  induction ops generalizing s with
  | nil => exact le_refl _
  | cons op ops ih =>
    exact le_trans (apply_op_now_le n op s) (ih (apply_op n op s))

/-- One step never changes `blockPeriod`. -/
theorem apply_op_blockPeriod (n : Nat) (op : Op) (s : State) :
    (apply_op n op s).blockPeriod = s.blockPeriod := by
  cases op with
  | setOp o t =>
    simp only [apply_op]
    split
    · rename_i r h
      rcases (set_ok_iff n o t s r).1 h with ⟨-, -, -, hr⟩
      subst hr
      rfl
    · rfl
  | finaliseOp => rfl
  | getOp => rfl
  | checkOp c d => rfl
  | createOp d => rfl

/-- A run never changes `blockPeriod`. -/
theorem run_blockPeriod (n : Nat) (ops : List Op) (s : State) :
    (run n ops s).blockPeriod = s.blockPeriod := by
  induction ops generalizing s with
  | nil => rfl
  | cons op ops ih =>
    exact (ih (apply_op n op s)).trans (apply_op_blockPeriod n op s)

/-- Claim C1: `create_inherent` on a decoded reading proposes exactly
`set (max reading (now + blockPeriod))`, a value that is at least
`now + blockPeriod` and at least the reading. -/
theorem create_inherent_spec (reading : Nat) (s : State) :
    create_inherent (.value reading) s =
      .ok (Call.set (max reading (s.now + s.blockPeriod))) ∧
    s.now + s.blockPeriod ≤ max reading (s.now + s.blockPeriod) ∧
    reading ≤ max reading (s.now + s.blockPeriod) :=
  ⟨rfl, le_max_right _ _, le_max_left _ _⟩

/-- Claim C2: `check_inherent` on a `set t` call with reading `data` rejects
fatally when `t > data + 60`, otherwise defers non-fatally to
`minimum = now + blockPeriod` when `t < minimum`, otherwise accepts; both
bounds are inclusive: whenever `minimum ≤ data + 60`, the endpoints
`t = minimum` and `t = data + 60` are accepted. -/
theorem check_inherent_spec (t reading : Nat) (s : State) :
    check_inherent (.set t) (.value reading) s =
      (if reading + 60 < t then
        .error (.Other "Timestamp too far in future to accept")
      else if t < s.now + s.blockPeriod then
        .error (.ValidAtTimestamp (s.now + s.blockPeriod))
      else
        .ok ()) ∧
    (s.now + s.blockPeriod ≤ reading + 60 →
      check_inherent (.set (s.now + s.blockPeriod)) (.value reading) s = .ok () ∧
      check_inherent (.set (reading + 60)) (.value reading) s = .ok ()) := by
  refine ⟨rfl, fun h => ⟨?_, ?_⟩⟩
  · simp only [check_inherent, extract_inherent_data, MAX_TIMESTAMP_DRIFT]
    rw [if_neg (by omega), if_neg (by omega)]
  · simp only [check_inherent, extract_inherent_data, MAX_TIMESTAMP_DRIFT]
    rw [if_neg (by omega), if_neg (by omega)]

/-- Witness for C2 at `now = 10`, `blockPeriod = 5`, `reading = 20`. -/
theorem check_inherent_spec_witness :
    10 + 5 ≤ 20 + 60 ∧
    check_inherent (.set (10 + 5)) (.value 20) ⟨10, 5, false⟩ = .ok () ∧
    check_inherent (.set (20 + 60)) (.value 20) ⟨10, 5, false⟩ = .ok () := by
  have h := (check_inherent_spec 15 20 ⟨10, 5, false⟩).2 (by decide)
  exact ⟨by decide, h.1, h.2⟩

/-- Claim C3: along any sequence of operations `now` never decreases, and
every successful `set` from a state with nonzero `now` lands at least
`blockPeriod` above the old value. -/
theorem now_monotone (n : Nat) (ops : List Op) (s : State) :
    s.now ≤ (run n ops s).now ∧
    (∀ (o : Bool) (t : Nat) (u : State) (r : State × List (Nat × Nat)),
      u.now ≠ 0 → set n o t u = .ok r → u.now + u.blockPeriod ≤ r.1.now) := by
  refine ⟨run_now_le n ops s, fun o t u r hne h => ?_⟩
  rcases (set_ok_iff n o t u r).1 h with ⟨-, -, hg, hr⟩
  subst hr
  rcases hg with h0 | hle
  · exact absurd h0 hne
  · exact hle

/-- Witness for C3: a concrete run, and a concrete successful `set` from
`now = 42`, `blockPeriod = 5` to `69`. -/
theorem now_monotone_witness :
    (⟨42, 5, false⟩ : State).now ≤
      (run 0 [Op.setOp true 69, Op.finaliseOp] ⟨42, 5, false⟩).now ∧
    (42 : Nat) + 5 ≤ 69 := by
  have h := now_monotone 0 [Op.setOp true 69, Op.finaliseOp] ⟨42, 5, false⟩
  refine ⟨h.1, ?_⟩
  have h2 := h.2 true 69 ⟨42, 5, false⟩ (⟨69, 5, true⟩, []) (by decide) (by rfl)
  exact h2

/-- Claim C4: `set` succeeds exactly when the origin is inherent, the
`DidUpdate` flag is down, and `now` is zero or the value meets the minimum
period; in particular from `now = 42`, `blockPeriod = 5`, `set 46` fails
the minimum-period assertion. -/
theorem set_preconditions (n : Nat) (o : Bool) (t : Nat) (s : State) :
    ((∃ r, set n o t s = .ok r) ↔
      (o = true ∧ s.didUpdate = false ∧
        (s.now = 0 ∨ s.now + s.blockPeriod ≤ t))) ∧
    set n true 46 ⟨42, 5, false⟩ =
      .error "Timestamp must increment by at least <BlockPeriod> between sequential blocks" := by
  constructor
  · constructor
    · rintro ⟨r, hr⟩
      rcases (set_ok_iff n o t s r).1 hr with ⟨h1, h2, h3, -⟩
      exact ⟨h1, h2, h3⟩
    · rintro ⟨h1, h2, h3⟩
      exact ⟨_, (set_ok_iff n o t s _).2 ⟨h1, h2, h3, rfl⟩⟩
  · rfl

/-- Witness for C4: the preconditions hold at `now = 42`, `blockPeriod = 5`,
`set 69`, so the call succeeds. -/
theorem set_preconditions_witness :
    ∃ r, set 0 true 69 ⟨42, 5, false⟩ = .ok r :=
  (set_preconditions 0 true 69 ⟨42, 5, false⟩).1.mpr
    ⟨rfl, rfl, Or.inr (by decide)⟩

/-- Claim C5: a successful `set` writes the value into `Now`, raises
`DidUpdate`, and notifies all `n` listeners in registration order with the
newly written value; `get` then returns the submitted value. -/
theorem set_effects (n : Nat) (o : Bool) (t : Nat) (s s' : State)
    (tr : List (Nat × Nat)) (h : set n o t s = .ok (s', tr)) :
    s'.now = t ∧ s'.didUpdate = true ∧
    tr = (List.range n).map (fun i => (i, t)) ∧ get s' = t := by
  rcases (set_ok_iff n o t s (s', tr)).1 h with ⟨-, -, -, hr⟩
  rcases Prod.mk.injEq .. ▸ hr with ⟨hs, ht⟩
  subst hs
  subst ht
  exact ⟨rfl, rfl, rfl, rfl⟩

/-- Witness for C5: Scenario A with two listeners, `now = 42`,
`blockPeriod = 5`, `set 69`. -/
theorem set_effects_witness :
    (⟨69, 5, true⟩ : State).now = 69 ∧
    (⟨69, 5, true⟩ : State).didUpdate = true ∧
    [(0, 69), (1, 69)] = (List.range 2).map (fun i => (i, 69)) ∧
    get ⟨69, 5, true⟩ = 69 :=
  set_effects 2 true 69 ⟨42, 5, false⟩ ⟨69, 5, true⟩ [(0, 69), (1, 69)] (by rfl)

/-- Claim C6: with `now = 0` and the flag down, `set` with inherent origin
accepts any value; in particular `now = 0`, `blockPeriod = 5`, `set 1`
succeeds. -/
theorem set_genesis (n : Nat) (t : Nat) (s : State) (h0 : s.now = 0)
    (hf : s.didUpdate = false) :
    (∃ r, set n true t s = .ok r) ∧
    (∃ r, set n true 1 ⟨0, 5, false⟩ = .ok r) := by
  constructor
  · exact ⟨_, (set_ok_iff n true t s _).2 ⟨rfl, hf, Or.inl h0, rfl⟩⟩
  · exact ⟨_, (set_ok_iff n true 1 ⟨0, 5, false⟩ _).2 ⟨rfl, rfl, Or.inl rfl, rfl⟩⟩

/-- Witness for C6: genesis state `now = 0`, `blockPeriod = 5`, `set 1`. -/
theorem set_genesis_witness :
    ∃ r, set 0 true 1 ⟨0, 5, false⟩ = .ok r :=
  (set_genesis 0 1 ⟨0, 5, false⟩ rfl rfl).1

/-- Claim C7: `on_finalise` reports the old flag value (`false` means the
assertion fails and the block is rejected) and in every case leaves the flag
down afterwards, with `Now` and `BlockPeriod` untouched, so the flag
precondition of `set` holds again for the next block. -/
theorem on_finalise_spec (s : State) :
    (on_finalise s).1 = s.didUpdate ∧
    (on_finalise s).2.didUpdate = false ∧
    (on_finalise s).2.now = s.now ∧
    (on_finalise s).2.blockPeriod = s.blockPeriod :=
  ⟨rfl, rfl, rfl, rfl⟩

/-- Claim C8: every `InherentError` is either a `ValidAtTimestamp` or an
`Other`, `is_fatal_error` is `false` on all of the former and `true` on all
of the latter, and fatality characterizes the `Other` variant. -/
theorem inherent_error_spec (e : InherentError) :
    ((∃ t, e = .ValidAtTimestamp t) ∨ (∃ m, e = .Other m)) ∧
    (∀ t, is_fatal_error (.ValidAtTimestamp t) = false) ∧
    (∀ m, is_fatal_error (.Other m) = true) ∧
    (is_fatal_error e = true ↔ ∃ m, e = .Other m) := by
  cases e <;> simp [is_fatal_error]

/-- Claim C9: no run of module operations changes `BlockPeriod`, and a
successful `set` produces exactly the old storage with only `Now` and
`DidUpdate` replaced. -/
theorem block_period_immutable (n : Nat) (ops : List Op) (s : State) :
    (run n ops s).blockPeriod = s.blockPeriod ∧
    (∀ (o : Bool) (t : Nat) (u s' : State) (tr : List (Nat × Nat)),
      set n o t u = .ok (s', tr) →
        s' = { u with now := t, didUpdate := true }) := by
  refine ⟨run_blockPeriod n ops s, fun o t u s' tr h => ?_⟩
  rcases (set_ok_iff n o t u (s', tr)).1 h with ⟨-, -, -, hr⟩
  exact congrArg Prod.fst hr

/-- Witness for C9: a concrete run and a concrete successful `set`. -/
theorem block_period_immutable_witness :
    (run 0 [Op.setOp true 69, Op.finaliseOp] ⟨42, 5, false⟩).blockPeriod = 5 ∧
    (⟨69, 5, true⟩ : State) = { (⟨42, 5, false⟩ : State) with now := 69, didUpdate := true } := by
  have h := block_period_immutable 0 [Op.setOp true 69, Op.finaliseOp] ⟨42, 5, false⟩
  exact ⟨h.1, h.2 true 69 ⟨42, 5, false⟩ ⟨69, 5, true⟩ [] (by rfl)⟩

/-- Claim C10: for every `set` call, absent or undecodable inherent data
makes `check_inherent` return the fatal `Other` variant, irrespective of the
submitted value and the stored state. -/
theorem check_inherent_missing_data (t : Nat) (s : State) :
    check_inherent (.set t) .missing s =
      .error (.Other "Timestamp inherent data is not provided.") ∧
    check_inherent (.set t) .invalid s =
      .error (.Other "Invalid timestamp inherent data encoding.") ∧
    is_fatal_error (.Other "Timestamp inherent data is not provided.") = true ∧
    is_fatal_error (.Other "Invalid timestamp inherent data encoding.") = true :=
  ⟨rfl, rfl, rfl, rfl⟩

end Timestamp
